import Mathlib

/-!
Shallow embedding of the graph visualization engine in
`src/rlm_code/web/js/graph.js` (the `Graph` module: `init`, `selectNode`,
`filterNeighborhood`, `resetView`, the internal `_select` and `_draw`).

Modelling conventions:
* Node/edge records follow the data shapes of `graph.js` and spec §3.  The
  engine never computes with the numeric metric payloads (pagerank,
  betweenness, degrees) — it only copies and compares them — so the numeric
  payload is embedded as `Int` (exact values are irrelevant to every claim).
* d3 may replace an edge's endpoint (a bare id string) with a direct node
  object reference in place; the source reads endpoints uniformly through
  `e.source.id || e.source`.  We embed endpoints as a sum `EdgeRef` of the
  two representations and `EdgeRef.refId` as that read; states are
  quantified over arbitrary `EdgeRef` forms, which soundly covers the
  post-resolution states.  Symbol ids are assumed to be nonempty strings
  (an empty JS string is falsy, which the truthiness tests in `_select`
  reflect explicitly below).
* The force simulation's continuous position updates and all purely visual
  DOM/zoom effects (status line, tooltip, viewport centering) are outside
  the state; what is modelled is exactly the data visible to the claims:
  master collections, the id index, the drawn subsets, the edges actually
  drawn, the selection id, "selected" circle styling, the filtered flag,
  and the `onSelect` callback invocations (as an emitted event list).
-/

/-- A graph node as served by `/api/graph` (spec §3) and consumed by
`graph.js`: identity, display fields, metric snapshot, and the mutable
position/velocity/pin fields owned by the layout. -/
structure Node where
  id : String
  name : String
  qualifiedName : String
  kind : String
  filePath : String
  pagerank : Int
  betweenness : Int
  inDegree : Int
  outDegree : Int
  x : Option Int
  y : Option Int
  vx : Option Int
  vy : Option Int
  fx : Option Int
  fy : Option Int
deriving DecidableEq, Repr

/-- An edge endpoint: either a bare id string (as loaded / re-normalized)
or a resolved direct node reference (as d3 rewrites it in place). -/
inductive EdgeRef where
  | id (s : String)
  | node (n : Node)
deriving DecidableEq, Repr

/-- The uniform endpoint read `e.source.id || e.source` from the source
(on a node object it yields the node's id; on a string, the string itself;
node ids are assumed nonempty, see the header note). -/
def EdgeRef.refId : EdgeRef → String
  | .id s => s
  | .node n => n.id

/-- An edge `{ source, target, kind }`. -/
structure Edge where
  source : EdgeRef
  target : EdgeRef
  kind : String
deriving DecidableEq, Repr

/-- The payload of `/api/graph`: `{ nodes, edges }`. -/
structure GraphData where
  nodes : List Node
  edges : List Edge
deriving DecidableEq, Repr

/-- A JS object used as a string-keyed map: we keep the assignment log;
lookup returns the most recent assignment for the key. -/
abbrev ObjMap := List (String × Node)

/-- JS property assignment `m[k] = v` (appends to the log). -/
def ObjMap.set (m : ObjMap) (k : String) (v : Node) : ObjMap :=
  m ++ [(k, v)]

/-- JS property read `m[k]`: the most recent assignment to `k`, if any. -/
def ObjMap.get (m : ObjMap) (k : String) : Option Node :=
  (m.reverse.find? (fun p => p.1 == k)).map (fun p => p.2)

/-- `_nodeMap = {}; for (const n of ns) _nodeMap[n.id] = n;`
from `Graph.init` and `Graph.resetView` (last assignment wins). -/
def buildNodeMap (ns : List Node) : ObjMap :=
  ns.foldl (fun m n => m.set n.id n) ([] : List (String × Node))

/-- The full mutable module state of `graph.js`, plus one ghost history
field.  `drawnNodes`/`drawnEdges` are the arrays last passed to `_draw`
(the displayed subset); `visibleEdges` is `_draw`'s internal filter of
`drawnEdges` — the edges actually bound to DOM lines and the simulation;
`selStyled` is the set of drawn-node ids whose circle currently carries
the `"selected"` class.  `lastFocus` is a ghost variable (not in the
source) recording the argument of the most recent `filterNeighborhood`
call, used only to state history properties. -/
structure GraphState where
  allNodes : List Node
  allEdges : List Edge
  nodeMap : ObjMap
  selectedId : Option String
  isFiltered : Bool
  drawnNodes : List Node
  drawnEdges : List Edge
  visibleEdges : List Edge
  selStyled : List String
  lastFocus : Option String
deriving DecidableEq, Repr

/-- `_draw`'s edge filter (graph.js lines 53-58): only edges whose both
endpoint ids are in the id set of the nodes being drawn are kept. -/
def visibleEdgesOf (nodes : List Node) (edges : List Edge) : List Edge :=
  edges.filter (fun e => (nodes.map (fun n => n.id)).contains e.source.refId &&
    (nodes.map (fun n => n.id)).contains e.target.refId)

/-- `_draw(nodes, edges)` (graph.js lines 49-137): records the drawn
subset, binds only `visibleEdgesOf` to lines/simulation, and rebuilds all
elements from scratch (so no circle carries the `"selected"` class until
the next `_select`). -/
def drawState (s : GraphState) (nodes : List Node) (edges : List Edge) : GraphState :=
  { s with
    drawnNodes := nodes
    drawnEdges := edges
    visibleEdges := visibleEdgesOf nodes edges
    selStyled := [] }

/-- The ids styled by `_select`'s
`classed("selected", d => d.id === id)` over the drawn nodes. -/
def selClassIds (drawn : List Node) (oid : Option String) : List String :=
  (drawn.filter (fun n => oid == some n.id)).map (fun n => n.id)

/-- `_select(id)` (graph.js lines 173-186): unconditionally stores the id,
restyles circles, and `if (id && _callbacks.onSelect) _callbacks.onSelect(id)`
— the callback fires exactly when `id` is truthy (non-null, nonempty).
Returns the new state and the list of callback invocations. -/
def doSelect (s : GraphState) (oid : Option String) : GraphState × List String :=
  let s' := { s with selectedId := oid, selStyled := selClassIds s.drawnNodes oid }
  match oid with
  | some i => (s', if i == "" then [] else [i])
  | none => (s', [])

/-- `Graph.init(svgSelector, data, callbacks)` (graph.js lines 199-220):
stores the master collections, builds the id index by plain object
assignment (no duplicate check), and draws the full graph.  The module
variables start as `null`/`false`. -/
def Graph.init (data : GraphData) : GraphState :=
  let s0 : GraphState :=
    { allNodes := data.nodes
      allEdges := data.edges
      nodeMap := buildNodeMap data.nodes
      selectedId := none
      isFiltered := false
      drawnNodes := []
      drawnEdges := []
      visibleEdges := []
      selStyled := []
      lastFocus := none }
  drawState s0 data.nodes data.edges

/-- `Graph.selectNode(symbolId)` (graph.js lines 226-239): `_select`
followed by a viewport-centering transition (purely visual, not part of
the modelled state). -/
def Graph.selectNode (s : GraphState) (symbolId : String) : GraphState × List String :=
  doSelect s (some symbolId)

/-- `if (acc.has x) acc else acc.add x` — JS `Set.add` on the insertion-order
list backing the neighbor set. -/
def addNbr (acc : List String) (x : String) : List String :=
  if acc.contains x then acc else acc ++ [x]

/-- The edge scan of `filterNeighborhood` (graph.js lines 262-267): an edge
whose source reads as the focus id adds its target, one whose target reads
as the focus id adds its source. -/
def nbrLoop (acc : List String) (edges : List Edge) (f : String) : List String :=
  match edges with
  | [] => acc
  | e :: rest =>
      let acc1 := if e.source.refId == f then addNbr acc e.target.refId else acc
      let acc2 := if e.target.refId == f then addNbr acc1 e.source.refId else acc1
      nbrLoop acc2 rest f

/-- `const neighbors = new Set([symbolId]); for (const e of _allEdges) ...`
(graph.js lines 261-267). -/
def neighborIds (edges : List Edge) (f : String) : List String :=
  nbrLoop [f] edges f

/-- The node clone `{ ...n, x: undefined, y: undefined, vx: 0, vy: 0 }`
used by both `filterNeighborhood` and `resetView`. -/
def cloneNode (n : Node) : Node :=
  { n with x := none, y := none, vx := some 0, vy := some 0 }

/-- The edge re-normalization
`{ source: e.source.id || e.source, target: e.target.id || e.target, kind: e.kind }`
used by both `filterNeighborhood` and `resetView`. -/
def normEdge (e : Edge) : Edge :=
  { source := .id e.source.refId, target := .id e.target.refId, kind := e.kind }

/-- The `subNodes` local of `filterNeighborhood` (graph.js lines 270-272):
nodes whose id is in the neighbor set, deep-cloned with positions cleared. -/
def subNodesOf (allNodes : List Node) (allEdges : List Edge) (f : String) : List Node :=
  (allNodes.filter (fun n => (neighborIds allEdges f).contains n.id)).map cloneNode

/-- The `subEdges` local of `filterNeighborhood` (graph.js lines 273-283):
edges with both endpoint ids in the neighbor set, re-normalized to bare ids. -/
def subEdgesOf (allEdges : List Edge) (f : String) : List Edge :=
  (allEdges.filter (fun e => (neighborIds allEdges f).contains e.source.refId &&
    (neighborIds allEdges f).contains e.target.refId)).map normEdge

/-- `Graph.filterNeighborhood(symbolId)` (graph.js lines 259-294): builds
the neighbor id set, derives fresh sub-collections from the masters, draws
them, sets the filtered flag, and auto-selects the center node.  Also
records the focus in the ghost `lastFocus`. -/
def Graph.filterNeighborhood (s : GraphState) (symbolId : String) : GraphState × List String :=
  let subNodes := subNodesOf s.allNodes s.allEdges symbolId
  let subEdges := subEdgesOf s.allEdges symbolId
  let s1 := drawState s subNodes subEdges
  let s2 := { s1 with isFiltered := true, lastFocus := some symbolId }
  doSelect s2 (some symbolId)

/-- `Graph.resetView()` (graph.js lines 300-328): a guarded no-op when not
filtered; otherwise replaces the masters with fresh clones (positions
cleared, edges re-normalized to bare ids), rebuilds the id index, redraws
the full graph, and clears the filtered flag.  `_selectedId` is not
touched. -/
def Graph.resetView (s : GraphState) : GraphState × List String :=
  if s.isFiltered = false then (s, []) else
  let freshNodes := s.allNodes.map cloneNode
  let freshEdges := s.allEdges.map normEdge
  let s1 := { s with
    allNodes := freshNodes
    allEdges := freshEdges
    nodeMap := buildNodeMap freshNodes }
  let s2 := drawState s1 freshNodes freshEdges
  ({ s2 with isFiltered := false }, [])

/-- The public operations a host can perform after `init`: programmatic or
click selection (`selectNode` / node click / background click, all of which
run `_select`), neighborhood filtering (double-click or programmatic), and
reset. -/
inductive Op where
  | select (oid : Option String)
  | filter (id : String)
  | reset
deriving DecidableEq, Repr

/-- One engine transition together with its emitted `onSelect` invocations. -/
def step (s : GraphState) : Op → GraphState × List String
  | .select oid => doSelect s oid
  | .filter i => Graph.filterNeighborhood s i
  | .reset => Graph.resetView s

/-- Run a sequence of operations (discarding the emitted events). -/
def run (s : GraphState) (ops : List Op) : GraphState :=
  ops.foldl (fun s o => (step s o).1) s

/-- The argument of the most recent `filterNeighborhood` call in an
operation sequence, if any. -/
def lastFilterArg (ops : List Op) : Option String :=
  ops.foldl (fun acc o => match o with | .filter i => some i | _ => acc) none

/-- The neighbor set exactly as the spec words it (§4.3, §8): the focus id
itself, sources of edges into the focus, and targets of edges out of the
focus.  Stated on the same edge collection the code scans. -/
def specNeighbor (edges : List Edge) (f k : String) : Prop :=
  k = f ∨ (∃ e ∈ edges, e.target.refId = f ∧ e.source.refId = k) ∨
    (∃ e ∈ edges, e.source.refId = f ∧ e.target.refId = k)

instance (edges : List Edge) (f k : String) : Decidable (specNeighbor edges f k) := by
  unfold specNeighbor
  infer_instance

/-- Sample node used by concrete witnesses/counterexamples. -/
def mkNode (i : String) : Node :=
  { id := i, name := i, qualifiedName := i, kind := "function", filePath := "a.py"
    pagerank := 1, betweenness := 0, inDegree := 0, outDegree := 0
    x := none, y := none, vx := none, vy := none, fx := none, fy := none }

/-- Sample bare-id edge used by concrete witnesses/counterexamples. -/
def mkEdge (a b : String) : Edge :=
  { source := .id a, target := .id b, kind := "call" }

/-- Sample dataset: one node `A`, no edges. -/
def dOneA : GraphData := { nodes := [mkNode "A"], edges := [] }

/-- Sample dataset: nodes `A`, `B` and the edge `A → B`. -/
def dTwoAB : GraphData := { nodes := [mkNode "A", mkNode "B"], edges := [mkEdge "A" "B"] }

/-- Sample dataset from spec §8: nodes `A,B,C,D`, edges `A→B, B→C`. -/
def dFour : GraphData :=
  { nodes := [mkNode "A", mkNode "B", mkNode "C", mkNode "D"]
    edges := [mkEdge "A" "B", mkEdge "B" "C"] }

/-- Identity-plus-metrics view of a node, for "equal by id, metric fields
unchanged" comparisons. -/
def nodeKey (n : Node) : String × Int × Int × Int × Int :=
  (n.id, n.pagerank, n.betweenness, n.inDegree, n.outDegree)

/-- Identity view of an edge (endpoint ids and kind), for "equal by id"
comparisons that ignore the bare-id/resolved-reference representation. -/
def edgeKey (e : Edge) : String × String × String :=
  (e.source.refId, e.target.refId, e.kind)

/-- The callback invocations the code actually emits for each operation:
exactly one `onSelect` with the target id when that id is truthy
(non-null and nonempty), and none otherwise. -/
def notifSpec : Op → List String
  | .select (some i) => if i == "" then [] else [i]
  | .select none => []
  | .filter i => if i == "" then [] else [i]
  | .reset => []

/-- The most recent node written for a given id, per JS object-assignment
semantics (used to characterize the id index on arbitrary inputs). -/
def lastWithId (ns : List Node) (k : String) : Option Node :=
  ns.reverse.find? (fun n => n.id == k)

/-- State invariant maintained by every operation: the id index is exactly
the one built from the current master node collection; master node ids are
those of the initial load; while filtered, the recorded focus is displayed
whenever it is a master id; and every edge actually drawn has both endpoint
ids among the drawn nodes. -/
def StateInv (d : GraphData) (s : GraphState) : Prop :=
  s.nodeMap = buildNodeMap s.allNodes ∧
  s.allNodes.map (fun n => n.id) = d.nodes.map (fun n => n.id) ∧
  (s.isFiltered = true → ∃ f, s.lastFocus = some f ∧
    (f ∈ s.allNodes.map (fun n => n.id) → f ∈ s.drawnNodes.map (fun n => n.id))) ∧
  (∀ e ∈ s.visibleEdges, e.source.refId ∈ s.drawnNodes.map (fun n => n.id) ∧
    e.target.refId ∈ s.drawnNodes.map (fun n => n.id))

/-! ## Helper lemmas -/

theorem contains_iff_mem (l : List String) (a : String) : l.contains a = true ↔ a ∈ l := by
  simp [List.contains]

theorem mem_addNbr (acc : List String) (x k : String) :
    k ∈ addNbr acc x ↔ k ∈ acc ∨ k = x := by
  unfold addNbr
  by_cases h : acc.contains x = true
  · have hx : x ∈ acc := (contains_iff_mem acc x).mp h
    rw [if_pos h]
    constructor
    · exact Or.inl
    · rintro (h1 | rfl)
      · exact h1
      · exact hx
  · rw [if_neg h]
    simp [List.mem_append]

theorem mem_ifAddNbr (c : Bool) (acc : List String) (x k : String) :
    k ∈ (if c = true then addNbr acc x else acc) ↔ k ∈ acc ∨ (c = true ∧ k = x) := by
  cases c <;> simp [mem_addNbr]

theorem mem_nbrLoop (edges : List Edge) (f : String) :
    ∀ acc k, k ∈ nbrLoop acc edges f ↔
      k ∈ acc ∨ (∃ e ∈ edges, (e.source.refId = f ∧ e.target.refId = k) ∨
        (e.target.refId = f ∧ e.source.refId = k)) := by
  induction edges with
  | nil =>
      intro acc k
      simp [nbrLoop]
  | cons e rest ih =>
      intro acc k
      simp only [nbrLoop]
      rw [ih, mem_ifAddNbr, mem_ifAddNbr]
      rw [List.exists_mem_cons_iff]
      simp only [beq_iff_eq]
      constructor
      · rintro (((hk | ⟨h1, h2⟩) | ⟨h1, h2⟩) | ⟨e', he', hP⟩)
        · exact Or.inl hk
        · exact Or.inr (Or.inl (Or.inl ⟨h1, h2.symm⟩))
        · exact Or.inr (Or.inl (Or.inr ⟨h1, h2.symm⟩))
        · exact Or.inr (Or.inr ⟨e', he', hP⟩)
      · rintro (hk | ((⟨h1, h2⟩ | ⟨h1, h2⟩) | ⟨e', he', hP⟩))
        · exact Or.inl (Or.inl (Or.inl hk))
        · exact Or.inl (Or.inl (Or.inr ⟨h1, h2.symm⟩))
        · exact Or.inl (Or.inr ⟨h1, h2.symm⟩)
        · exact Or.inr ⟨e', he', hP⟩

theorem mem_neighborIds (edges : List Edge) (f k : String) :
    k ∈ neighborIds edges f ↔ specNeighbor edges f k := by
  unfold neighborIds specNeighbor
  rw [mem_nbrLoop]
  simp only [List.mem_singleton]
  constructor
  · rintro (rfl | ⟨e, he, ⟨h1, h2⟩ | ⟨h1, h2⟩⟩)
    · exact Or.inl rfl
    · exact Or.inr (Or.inr ⟨e, he, h1, h2⟩)
    · exact Or.inr (Or.inl ⟨e, he, h1, h2⟩)
  · rintro (rfl | ⟨e, he, h1, h2⟩ | ⟨e, he, h1, h2⟩)
    · exact Or.inl rfl
    · exact Or.inr ⟨e, he, Or.inr ⟨h1, h2⟩⟩
    · exact Or.inr ⟨e, he, Or.inl ⟨h1, h2⟩⟩

theorem focus_mem_neighborIds (edges : List Edge) (f : String) :
    f ∈ neighborIds edges f :=
  (mem_neighborIds edges f f).mpr (Or.inl rfl)

theorem buildNodeMap_acc (ns : List Node) :
    ∀ acc : ObjMap, ns.foldl (fun m n => m.set n.id n) acc =
      acc ++ ns.map (fun n => (n.id, n)) := by
  induction ns with
  | nil => intro acc; simp
  | cons n rest ih =>
      intro acc
      simp only [List.foldl_cons, List.map_cons]
      rw [ih]
      simp [ObjMap.set]

theorem buildNodeMap_eq (ns : List Node) :
    buildNodeMap ns = ns.map (fun n => (n.id, n)) := by
  have h := buildNodeMap_acc ns ([] : List (String × Node))
  simpa [buildNodeMap] using h

theorem get_buildNodeMap (ns : List Node) (k : String) :
    ObjMap.get (buildNodeMap ns) k = lastWithId ns k := by
  rw [buildNodeMap_eq]
  unfold ObjMap.get lastWithId
  rw [← List.map_reverse, List.find?_map, Option.map_map]
  have hp : ((fun p : String × Node => p.1 == k) ∘ fun n : Node => (n.id, n)) =
      fun n : Node => n.id == k := rfl
  have hg : ((fun p : String × Node => p.2) ∘ fun n : Node => (n.id, n)) =
      fun n : Node => n := rfl
  rw [hp, hg]
  simp

theorem lastWithId_isSome (ns : List Node) (k : String) :
    (lastWithId ns k).isSome = true ↔ k ∈ ns.map (fun n => n.id) := by
  unfold lastWithId
  rw [List.find?_isSome]
  constructor
  · rintro ⟨n, hn, hk⟩
    exact List.mem_map.mpr ⟨n, List.mem_reverse.mp hn, beq_iff_eq.mp hk⟩
  · rintro hm
    rcases List.mem_map.mp hm with ⟨n, hn, hk⟩
    exact ⟨n, List.mem_reverse.mpr hn, beq_iff_eq.mpr hk⟩

theorem lastWithId_mem (ns : List Node) (k : String) (n : Node)
    (h : lastWithId ns k = some n) : n ∈ ns ∧ n.id = k := by
  unfold lastWithId at h
  refine ⟨List.mem_reverse.mp (List.mem_of_find?_eq_some h), ?_⟩
  have hp := @List.find?_some Node (fun n : Node => n.id == k) n ns.reverse h
  exact beq_iff_eq.mp hp

theorem find?_id_of_nodup :
    ∀ ns : List Node, (ns.map (fun n => n.id)).Nodup →
      ∀ n ∈ ns, ns.find? (fun m => m.id == n.id) = some n := by
  intro ns
  induction ns with
  | nil => intro _ n hn; cases hn
  | cons a rest ih =>
      intro hnd n hn
      have hnd' := hnd
      rw [List.map_cons, List.nodup_cons] at hnd'
      rcases List.mem_cons.mp hn with rfl | hn'
      · simp
      · have hna : (a.id == n.id) = false := by
          simp only [beq_eq_false_iff_ne, ne_eq]
          intro he
          exact hnd'.1 (he ▸ List.mem_map.mpr ⟨n, hn', rfl⟩)
        rw [List.find?_cons, hna]
        exact ih hnd'.2 n hn'

theorem lastWithId_of_nodup (ns : List Node) (hnd : (ns.map (fun n => n.id)).Nodup)
    (n : Node) (hn : n ∈ ns) : lastWithId ns n.id = some n := by
  unfold lastWithId
  have hnd' : (ns.reverse.map (fun n => n.id)).Nodup := by
    rw [List.map_reverse]
    exact List.nodup_reverse.mpr hnd
  exact find?_id_of_nodup ns.reverse hnd' n (List.mem_reverse.mpr hn)

theorem mem_visibleEdgesOf (nodes : List Node) (edges : List Edge) (e : Edge) :
    e ∈ visibleEdgesOf nodes edges ↔
      e ∈ edges ∧ e.source.refId ∈ nodes.map (fun n => n.id) ∧
        e.target.refId ∈ nodes.map (fun n => n.id) := by
  unfold visibleEdgesOf
  rw [List.mem_filter]
  simp [contains_iff_mem, and_assoc]

theorem doSelect_fst (s : GraphState) (oid : Option String) :
    (doSelect s oid).1 =
      { s with selectedId := oid, selStyled := selClassIds s.drawnNodes oid } := by
  cases oid <;> rfl

theorem reset_of_not_filtered (s : GraphState) (h : s.isFiltered = false) :
    Graph.resetView s = (s, []) := by
  simp [Graph.resetView, h]

theorem reset_of_filtered (s : GraphState) (h : s.isFiltered = true) :
    Graph.resetView s =
      ({ s with
          allNodes := s.allNodes.map cloneNode
          allEdges := s.allEdges.map normEdge
          nodeMap := buildNodeMap (s.allNodes.map cloneNode)
          drawnNodes := s.allNodes.map cloneNode
          drawnEdges := s.allEdges.map normEdge
          visibleEdges := visibleEdgesOf (s.allNodes.map cloneNode) (s.allEdges.map normEdge)
          selStyled := []
          isFiltered := false }, []) := by
  rw [Graph.resetView, if_neg (by simp [h])]
  rfl

theorem mem_subNode_ids (allNodes : List Node) (edges : List Edge) (i k : String) :
    k ∈ ((allNodes.filter (fun n => (neighborIds edges i).contains n.id)).map cloneNode).map
        (fun n => n.id) ↔
      specNeighbor edges i k ∧ k ∈ allNodes.map (fun n => n.id) := by
  rw [List.map_map]
  have hc : ((fun n : Node => n.id) ∘ cloneNode) = fun n : Node => n.id := rfl
  rw [hc]
  constructor
  · intro hk
    rcases List.mem_map.mp hk with ⟨n, hn, rfl⟩
    have hf := List.mem_filter.mp hn
    exact ⟨(mem_neighborIds _ _ _).mp ((contains_iff_mem _ _).mp hf.2),
      List.mem_map.mpr ⟨n, hf.1, rfl⟩⟩
  · rintro ⟨hspec, hk⟩
    rcases List.mem_map.mp hk with ⟨n, hn, rfl⟩
    exact List.mem_map.mpr ⟨n, List.mem_filter.mpr
      ⟨hn, (contains_iff_mem _ _).mpr ((mem_neighborIds _ _ _).mpr hspec)⟩, rfl⟩

theorem stateInv_init (d : GraphData) : StateInv d (Graph.init d) := by
  refine ⟨rfl, rfl, ?_, ?_⟩
  · intro h
    simp [Graph.init, drawState] at h
  · intro e he
    have hm := (mem_visibleEdgesOf d.nodes d.edges e).mp he
    exact ⟨hm.2.1, hm.2.2⟩

theorem stateInv_step (d : GraphData) (s : GraphState) (o : Op) (hs : StateInv d s) :
    StateInv d ((step s o).1) := by
  obtain ⟨hmap, hids, hfoc, hvis⟩ := hs
  cases o with
  | select oid =>
      rw [show (step s (Op.select oid)).1 = (doSelect s oid).1 from rfl, doSelect_fst]
      exact ⟨hmap, hids, hfoc, hvis⟩
  | filter i =>
      refine ⟨hmap, hids, ?_, ?_⟩
      · intro _
        refine ⟨i, rfl, fun hin => ?_⟩
        exact (mem_subNode_ids s.allNodes s.allEdges i i).mpr ⟨Or.inl rfl, hin⟩
      · intro e he
        have hm := (mem_visibleEdgesOf _ _ e).mp he
        exact ⟨hm.2.1, hm.2.2⟩
  | reset =>
      by_cases h : s.isFiltered = true
      · rw [show (step s Op.reset).1 = (Graph.resetView s).1 from rfl, reset_of_filtered s h]
        refine ⟨rfl, ?_, ?_, ?_⟩
        · rw [show ((s.allNodes.map cloneNode).map (fun n => n.id)) =
                s.allNodes.map (fun n => n.id) by
              rw [List.map_map]; rfl]
          exact hids
        · intro hh
          simp at hh
        · intro e he
          have hm := (mem_visibleEdgesOf _ _ e).mp he
          exact ⟨hm.2.1, hm.2.2⟩
      · have h' : s.isFiltered = false := by
          cases hb : s.isFiltered
          · rfl
          · exact absurd hb h
        rw [show (step s Op.reset).1 = (Graph.resetView s).1 from rfl,
          reset_of_not_filtered s h']
        exact ⟨hmap, hids, hfoc, hvis⟩

theorem stateInv_run (d : GraphData) (ops : List Op) :
    ∀ s, StateInv d s → StateInv d (run s ops) := by
  induction ops with
  | nil => intro s hs; exact hs
  | cons o rest ih => intro s hs; exact ih _ (stateInv_step d s o hs)

theorem step_lastFocus (s : GraphState) (o : Op) :
    ((step s o).1).lastFocus =
      match o with
      | Op.filter i => some i
      | _ => s.lastFocus := by
  cases o with
  | select oid => cases oid <;> rfl
  | filter i => rfl
  | reset =>
      by_cases h : s.isFiltered = true
      · rw [show (step s Op.reset).1 = (Graph.resetView s).1 from rfl, reset_of_filtered s h]
      · have h' : s.isFiltered = false := by
          cases hb : s.isFiltered
          · rfl
          · exact absurd hb h
        rw [show (step s Op.reset).1 = (Graph.resetView s).1 from rfl,
          reset_of_not_filtered s h']

theorem lastFilterArg_acc (ops : List Op) :
    ∀ a : Option String,
      ops.foldl (fun acc o => match o with | Op.filter i => some i | _ => acc) a =
        match lastFilterArg ops with
        | some f => some f
        | none => a := by
  induction ops with
  | nil => intro a; rfl
  | cons o rest ih =>
      intro a
      rw [List.foldl_cons, ih]
      have hr : lastFilterArg (o :: rest) =
          match lastFilterArg rest with
          | some f => some f
          | none => (match o with | Op.filter i => some i | _ => none) := by
        unfold lastFilterArg
        rw [List.foldl_cons, ih]
        rfl
      rw [hr]
      cases hlf : lastFilterArg rest with
      | some g => rfl
      | none => cases o <;> rfl

theorem lastFilterArg_cons (o : Op) (rest : List Op) :
    lastFilterArg (o :: rest) =
      match lastFilterArg rest with
      | some f => some f
      | none => (match o with | Op.filter i => some i | _ => none) := by
  unfold lastFilterArg
  rw [List.foldl_cons, lastFilterArg_acc]
  rfl

theorem run_lastFocus (ops : List Op) :
    ∀ s : GraphState, (run s ops).lastFocus =
      match lastFilterArg ops with
      | some f => some f
      | none => s.lastFocus := by
  induction ops with
  | nil => intro s; rfl
  | cons o rest ih =>
      intro s
      rw [show run s (o :: rest) = run ((step s o).1) rest from rfl, ih,
        lastFilterArg_cons, step_lastFocus]
      cases hlf : lastFilterArg rest with
      | some g => rfl
      | none => cases o <;> rfl

theorem mem_subNodesOf (allNodes : List Node) (allEdges : List Edge) (f k : String) :
    k ∈ (subNodesOf allNodes allEdges f).map (fun n => n.id) ↔
      specNeighbor allEdges f k ∧ k ∈ allNodes.map (fun n => n.id) :=
  mem_subNode_ids allNodes allEdges f k

theorem and_absorb (a b : Bool) (h : a = true → b = true) : (a && b) = a := by
  cases a
  · rfl
  · simp [h rfl]

theorem visibleEdgesOf_subsets (allNodes : List Node) (allEdges : List Edge) (f : String) :
    visibleEdgesOf (subNodesOf allNodes allEdges f) (subEdgesOf allEdges f) =
      (allEdges.filter (fun e =>
        ((subNodesOf allNodes allEdges f).map (fun n => n.id)).contains e.source.refId &&
        ((subNodesOf allNodes allEdges f).map (fun n => n.id)).contains e.target.refId)).map
          normEdge := by
  unfold visibleEdgesOf subEdgesOf
  rw [List.filter_map, List.filter_filter]
  congr 1
  apply List.filter_congr
  intro e he
  show ((((subNodesOf allNodes allEdges f).map (fun n => n.id)).contains e.source.refId &&
        ((subNodesOf allNodes allEdges f).map (fun n => n.id)).contains e.target.refId) &&
       ((neighborIds allEdges f).contains e.source.refId &&
        (neighborIds allEdges f).contains e.target.refId)) =
       (((subNodesOf allNodes allEdges f).map (fun n => n.id)).contains e.source.refId &&
        ((subNodesOf allNodes allEdges f).map (fun n => n.id)).contains e.target.refId)
  apply and_absorb
  intro hq
  simp only [Bool.and_eq_true] at hq
  obtain ⟨h1, h2⟩ := hq
  have hsrc := ((mem_subNodesOf allNodes allEdges f e.source.refId).mp
    ((contains_iff_mem _ _).mp h1)).1
  have htgt := ((mem_subNodesOf allNodes allEdges f e.target.refId).mp
    ((contains_iff_mem _ _).mp h2)).1
  simp only [Bool.and_eq_true]
  exact ⟨(contains_iff_mem _ _).mpr ((mem_neighborIds _ _ _).mpr hsrc),
     (contains_iff_mem _ _).mpr ((mem_neighborIds _ _ _).mpr htgt)⟩

theorem map_id_clone (ns : List Node) :
    (ns.map cloneNode).map (fun n => n.id) = ns.map (fun n => n.id) := by
  rw [List.map_map]
  rfl

theorem map_key_clone (ns : List Node) :
    (ns.map cloneNode).map nodeKey = ns.map nodeKey := by
  rw [List.map_map]
  rfl

theorem map_key_norm (es : List Edge) :
    (es.map normEdge).map edgeKey = es.map edgeKey := by
  rw [List.map_map]
  rfl

theorem run_filters_masters (fs : List String) :
    ∀ s : GraphState, (run s (fs.map Op.filter)).allNodes = s.allNodes ∧
      (run s (fs.map Op.filter)).allEdges = s.allEdges := by
  induction fs with
  | nil => intro s; exact ⟨rfl, rfl⟩
  | cons f rest ih =>
      intro s
      have h := ih ((step s (Op.filter f)).1)
      exact ⟨h.1, h.2⟩

theorem run_filters_filtered (fs : List String) :
    ∀ s : GraphState, fs ≠ [] → (run s (fs.map Op.filter)).isFiltered = true := by
  induction fs with
  | nil => intro s h; exact absurd rfl h
  | cons f rest ih =>
      intro s _
      cases rest with
      | nil => rfl
      | cons g rest2 =>
          exact ih ((step s (Op.filter f)).1) (List.cons_ne_nil g rest2)

theorem selClassIds_nil (drawn : List Node) (i : String)
    (h : i ∉ drawn.map (fun n => n.id)) : selClassIds drawn (some i) = [] := by
  unfold selClassIds
  rw [List.filter_eq_nil_iff.mpr]
  · rfl
  · intro n hn hp
    have : i = n.id := by simpa using hp
    exact h (this ▸ List.mem_map.mpr ⟨n, hn, rfl⟩)

theorem subNodesOf_ids_subset (allNodes : List Node) (allEdges : List Edge) (f k : String)
    (h : k ∈ (subNodesOf allNodes allEdges f).map (fun n => n.id)) :
    k ∈ allNodes.map (fun n => n.id) :=
  ((mem_subNodesOf allNodes allEdges f k).mp h).2

/-! ## Claim theorems -/

/-- C1 (counterexample): the claim promises that the displayed node set of
`filterNeighborhood f` always equals `{f} ∪ {n : edge n→f} ∪ {n : edge f→n}`.
With the loaded collection `nodes = [A]`, `edges = []` and focus id `"B"`,
the claimed set contains `"B"` (it always contains the focus), but the code
displays only loaded nodes whose id is in the neighbor set, so the displayed
node set is empty and `"B"` is not in it. -/
theorem C1_counterexample :
    specNeighbor (Graph.init dOneA).allEdges "B" "B" ∧
    "B" ∉ ((Graph.filterNeighborhood (Graph.init dOneA) "B").1).drawnNodes.map
      (fun n => n.id) := by
  constructor
  · exact Or.inl rfl
  · decide

/-- C1 (amended): for every focus id `f` and every loaded state,
`filterNeighborhood f` displays exactly the loaded nodes whose id is in
`{f} ∪ {n : edge n→f} ∪ {n : edge f→n}` (the claimed set intersected with
the loaded ids); the edges actually drawn are exactly the original edges
whose two endpoint ids are both in the displayed node set, re-normalized so
that each output edge's endpoints are bare ids, never resolved node
references. -/
theorem C1_filter_neighborhood (s : GraphState) (f : String) :
    (∀ k, k ∈ ((Graph.filterNeighborhood s f).1).drawnNodes.map (fun n => n.id) ↔
      (specNeighbor s.allEdges f k ∧ k ∈ s.allNodes.map (fun n => n.id))) ∧
    ((Graph.filterNeighborhood s f).1).visibleEdges =
      (s.allEdges.filter (fun e =>
        (((Graph.filterNeighborhood s f).1).drawnNodes.map (fun n => n.id)).contains
          e.source.refId &&
        (((Graph.filterNeighborhood s f).1).drawnNodes.map (fun n => n.id)).contains
          e.target.refId)).map normEdge ∧
    (∀ e ∈ ((Graph.filterNeighborhood s f).1).drawnEdges,
      (∃ a, e.source = EdgeRef.id a) ∧ (∃ b, e.target = EdgeRef.id b)) := by
  refine ⟨fun k => mem_subNodesOf s.allNodes s.allEdges f k, ?_, ?_⟩
  · exact visibleEdgesOf_subsets s.allNodes s.allEdges f
  · intro e he
    have hm : e ∈ (s.allEdges.filter (fun e =>
        (neighborIds s.allEdges f).contains e.source.refId &&
        (neighborIds s.allEdges f).contains e.target.refId)).map normEdge := he
    rcases List.mem_map.mp hm with ⟨e0, _, rfl⟩
    exact ⟨⟨e0.source.refId, rfl⟩, ⟨e0.target.refId, rfl⟩⟩

/-- C1 (witness): concrete evaluation of the amended characterization on
the dataset `nodes = [A, B]`, `edges = [A→B]` with focus `A`. -/
theorem C1_filter_neighborhood_witness :
    ("B" ∈ ((Graph.filterNeighborhood (Graph.init dTwoAB) "A").1).drawnNodes.map
      (fun n => n.id) ↔
        (specNeighbor (Graph.init dTwoAB).allEdges "A" "B" ∧
          "B" ∈ (Graph.init dTwoAB).allNodes.map (fun n => n.id))) ∧
    (∀ e ∈ ((Graph.filterNeighborhood (Graph.init dTwoAB) "A").1).drawnEdges,
      (∃ a, e.source = EdgeRef.id a) ∧ (∃ b, e.target = EdgeRef.id b)) :=
  ⟨(C1_filter_neighborhood (Graph.init dTwoAB) "A").1 "B",
   (C1_filter_neighborhood (Graph.init dTwoAB) "A").2.2⟩

/-- C8: `filterNeighborhood` never mutates the master collections: after
the call the master node and edge arrays (hence every id, metric and kind
field in them) are exactly what they were before, and every displayed node
is a freshly built clone of a master node (positions cleared), not a
master node itself. -/
theorem C8_filter_frame (s : GraphState) (i : String) :
    ((Graph.filterNeighborhood s i).1).allNodes = s.allNodes ∧
    ((Graph.filterNeighborhood s i).1).allEdges = s.allEdges ∧
    ((Graph.filterNeighborhood s i).1).nodeMap = s.nodeMap ∧
    (∀ n ∈ ((Graph.filterNeighborhood s i).1).drawnNodes,
      ∃ m ∈ s.allNodes, n = cloneNode m ∧ n.id = m.id ∧ nodeKey n = nodeKey m ∧
        n.x = none ∧ n.y = none) := by
  refine ⟨rfl, rfl, rfl, ?_⟩
  intro n hn
  have hm : n ∈ (s.allNodes.filter (fun m =>
      (neighborIds s.allEdges i).contains m.id)).map cloneNode := hn
  rcases List.mem_map.mp hm with ⟨m, hmem, rfl⟩
  exact ⟨m, (List.mem_filter.mp hmem).1, rfl, rfl, rfl, rfl, rfl⟩

/-- C8 (witness): concrete evaluation on `nodes = [A, B]`, `edges = [A→B]`
filtered at `A`. -/
theorem C8_filter_frame_witness :
    ((Graph.filterNeighborhood (Graph.init dTwoAB) "A").1).allNodes =
      (Graph.init dTwoAB).allNodes ∧
    (∀ n ∈ ((Graph.filterNeighborhood (Graph.init dTwoAB) "A").1).drawnNodes,
      ∃ m ∈ (Graph.init dTwoAB).allNodes, n = cloneNode m ∧ n.id = m.id ∧
        nodeKey n = nodeKey m ∧ n.x = none ∧ n.y = none) :=
  ⟨(C8_filter_frame (Graph.init dTwoAB) "A").1,
   (C8_filter_frame (Graph.init dTwoAB) "A").2.2.2⟩

/-- C9: `_draw` binds to lines and to the simulation exactly those input
edges whose source id and target id are both ids of nodes being drawn; an
edge with a dangling endpoint is silently excluded (the filter is total —
no error path exists), and every edge with both endpoints present is kept. -/
theorem C9_visible_edges (s : GraphState) (nodes : List Node) (edges : List Edge) (e : Edge) :
    ((drawState s nodes edges).visibleEdges = visibleEdgesOf nodes edges) ∧
    (e ∈ visibleEdgesOf nodes edges ↔
      e ∈ edges ∧ e.source.refId ∈ nodes.map (fun n => n.id) ∧
        e.target.refId ∈ nodes.map (fun n => n.id)) :=
  ⟨rfl, mem_visibleEdgesOf nodes edges e⟩

/-- C9 (witness): on drawn nodes `[A]` with candidate edges `[A→B, A→A]`,
the dangling edge `A→B` is excluded and the complete edge `A→A` is kept. -/
theorem C9_visible_edges_witness :
    (mkEdge "A" "B" ∈ visibleEdgesOf [mkNode "A"] [mkEdge "A" "B", mkEdge "A" "A"] ↔
      mkEdge "A" "B" ∈ [mkEdge "A" "B", mkEdge "A" "A"] ∧
        (mkEdge "A" "B").source.refId ∈ [mkNode "A"].map (fun n => n.id) ∧
        (mkEdge "A" "B").target.refId ∈ [mkNode "A"].map (fun n => n.id)) :=
  (C9_visible_edges (Graph.init dOneA) [mkNode "A"]
    [mkEdge "A" "B", mkEdge "A" "A"] (mkEdge "A" "B")).2

/-- C3 (counterexample): the claim says the notification fires exactly when
an operation changes `selectedId`, with the new value including `null`.
Concretely: after selecting `A`, a background click (`_select(null)`)
changes `selectedId` from `some "A"` to `none` yet emits no notification;
and re-selecting the already-selected `A` does not change `selectedId` yet
emits the notification again.  Both directions of the claimed equivalence
fail on the code. -/
theorem C3_counterexample :
    ((step (Graph.init dOneA) (Op.select (some "A"))).1).selectedId = some "A" ∧
    ((step ((step (Graph.init dOneA) (Op.select (some "A"))).1)
      (Op.select none)).1).selectedId = none ∧
    (step ((step (Graph.init dOneA) (Op.select (some "A"))).1)
      (Op.select none)).2 = [] ∧
    (step ((step (Graph.init dOneA) (Op.select (some "A"))).1)
      (Op.select (some "A"))).2 = ["A"] := by
  decide

/-- C3 (amended): for every state and operation, the `onSelect` callback
invocations emitted are exactly `notifSpec`: one invocation carrying the
target id whenever the operation carries a truthy (non-null, nonempty) id
— `selectNode`/node click and `filterNeighborhood` — independently of
whether `selectedId` actually changes; deselection (`select(null)`,
background click) and `resetView` never invoke the callback, so no
notification ever carries null.  `selectedId` itself is always set to the
operation's target. -/
theorem C3_notification_policy (s : GraphState) (o : Op) :
    (step s o).2 = notifSpec o ∧
    (∀ oid, ((step s (Op.select oid)).1).selectedId = oid) ∧
    (∀ i, ((step s (Op.filter i)).1).selectedId = some i) := by
  refine ⟨?_, ?_, ?_⟩
  · cases o with
    | select oid => cases oid <;> rfl
    | filter i => rfl
    | reset =>
        by_cases h : s.isFiltered = true
        · rw [show step s Op.reset = Graph.resetView s from rfl, reset_of_filtered s h]
          rfl
        · have h' : s.isFiltered = false := by
            cases hb : s.isFiltered
            · rfl
            · exact absurd hb h
          rw [show step s Op.reset = Graph.resetView s from rfl,
            reset_of_not_filtered s h']
          rfl
  · intro oid
    cases oid <;> rfl
  · intro i
    rfl

/-- C4 (counterexample): the claim says `selectNode` with an id absent from
the node set is a no-op that changes nothing and fires no notification.
Concretely, on the load `nodes = [A]`, `edges = []` (so `"X"` is absent),
`selectNode("X")` changes `selectedId` from `none` to `some "X"` and emits
the notification `["X"]`. -/
theorem C4_counterexample :
    (Graph.init dOneA).selectedId = none ∧
    ((Graph.selectNode (Graph.init dOneA) "X").1).selectedId = some "X" ∧
    (Graph.selectNode (Graph.init dOneA) "X").2 = ["X"] := by
  decide

/-- C4 (amended): for every nonempty id absent from the master and drawn
node sets, both calls are non-fatal (total) but not no-ops: `selectNode(id)`
sets `selectedId := id` and fires the notification with `id`, though no
drawn node gains "selected" styling; `filterNeighborhood(id)` enters the
filtered state, displays only the loaded neighbors of `id` (none, when no
edge mentions it), sets `selectedId := id` and fires the notification. -/
theorem C4_unknown_id (s : GraphState) (i : String) (hne : ¬i = "")
    (hA : i ∉ s.allNodes.map (fun n => n.id))
    (hD : i ∉ s.drawnNodes.map (fun n => n.id)) :
    ((Graph.selectNode s i).1).selectedId = some i ∧
    (Graph.selectNode s i).2 = [i] ∧
    ((Graph.selectNode s i).1).selStyled = [] ∧
    ((Graph.filterNeighborhood s i).1).isFiltered = true ∧
    ((Graph.filterNeighborhood s i).1).selectedId = some i ∧
    (Graph.filterNeighborhood s i).2 = [i] ∧
    i ∉ ((Graph.filterNeighborhood s i).1).drawnNodes.map (fun n => n.id) ∧
    ((Graph.filterNeighborhood s i).1).selStyled = [] := by
  have hbeq : (i == "") = false := by
    simpa using hne
  have hnotSub : i ∉ (subNodesOf s.allNodes s.allEdges i).map (fun n => n.id) := by
    intro hmem
    exact hA (subNodesOf_ids_subset s.allNodes s.allEdges i i hmem)
  refine ⟨rfl, ?_, ?_, rfl, rfl, ?_, hnotSub, ?_⟩
  · show (if (i == "") = true then ([] : List String) else [i]) = [i]
    rw [hbeq]
    rfl
  · show selClassIds s.drawnNodes (some i) = []
    exact selClassIds_nil s.drawnNodes i hD
  · show (if (i == "") = true then ([] : List String) else [i]) = [i]
    rw [hbeq]
    rfl
  · show selClassIds (subNodesOf s.allNodes s.allEdges i) (some i) = []
    exact selClassIds_nil _ i hnotSub

/-- C4 (witness): concrete evaluation with the unknown id `"X"` on the
load `nodes = [A]`, `edges = []`. -/
theorem C4_unknown_id_witness :
    ((Graph.selectNode (Graph.init dOneA) "X").1).selectedId = some "X" ∧
    ((Graph.filterNeighborhood (Graph.init dOneA) "X").1).isFiltered = true ∧
    "X" ∉ ((Graph.filterNeighborhood (Graph.init dOneA) "X").1).drawnNodes.map
      (fun n => n.id) :=
  ⟨(C4_unknown_id (Graph.init dOneA) "X" (by decide) (by decide) (by decide)).1,
   (C4_unknown_id (Graph.init dOneA) "X" (by decide) (by decide) (by decide)).2.2.2.1,
   (C4_unknown_id (Graph.init dOneA) "X" (by decide) (by decide) (by decide)).2.2.2.2.2.2.1⟩

/-- C6 (counterexample): the claim says loading a collection with two nodes
of the same id fails fast with a fatal load-time error and no partial
recovery.  Concretely, with two distinct nodes both carrying id `"A"`,
`init` completes normally: both nodes are stored in the master collection
and the index silently maps `"A"` to the *later* node (last assignment
wins) — exactly a partial recovery, with no error surfaced (the embedded
`init`, like the source loop, has no error path at all). -/
theorem C6_counterexample :
    (Graph.init { nodes := [mkNode "A", { mkNode "A" with name := "A2" }], edges := [] }).allNodes
      = [mkNode "A", { mkNode "A" with name := "A2" }] ∧
    ObjMap.get (Graph.init
        { nodes := [mkNode "A", { mkNode "A" with name := "A2" }], edges := [] }).nodeMap "A"
      = some { mkNode "A" with name := "A2" } ∧
    ({ mkNode "A" with name := "A2" } : Node) ≠ mkNode "A" := by
  refine ⟨rfl, ?_, by decide⟩
  decide

/-- C6 (amended): `init` never fails: it stores the node collection as-is
and builds the index by plain object assignment, so the index maps each id
`k` to the most recent node with id `k` (silent last-wins on duplicates,
no error, no rejection); for every duplicate-free input the index maps each
id to its unique node, as the claim's second half states. -/
theorem C6_init_index (d : GraphData) :
    (Graph.init d).allNodes = d.nodes ∧
    (∀ k, ObjMap.get (Graph.init d).nodeMap k = lastWithId d.nodes k) ∧
    ((d.nodes.map (fun n => n.id)).Nodup →
      ∀ n ∈ d.nodes, ObjMap.get (Graph.init d).nodeMap n.id = some n) := by
  refine ⟨rfl, ?_, ?_⟩
  · intro k
    exact get_buildNodeMap d.nodes k
  · intro hnd n hn
    rw [show (Graph.init d).nodeMap = buildNodeMap d.nodes from rfl, get_buildNodeMap]
    exact lastWithId_of_nodup d.nodes hnd n hn

/-- C6 (witness): concrete evaluation of the duplicate-free half on
`nodes = [A, B]`. -/
theorem C6_init_index_witness :
    ObjMap.get (Graph.init dTwoAB).nodeMap (mkNode "A").id = some (mkNode "A") :=
  (C6_init_index dTwoAB).2.2 (by decide) (mkNode "A") (by decide)

/-- C7 (counterexample): the claim says `resetView` while filtered makes
`selectedId` null.  Concretely, after `filterNeighborhood("A")` on the load
`nodes = [A, B]`, `edges = [A→B]` (which auto-selects `A`), `resetView`
clears the filtered flag but leaves `selectedId = some "A"`, not null —
the source never touches `_selectedId` in `resetView`. -/
theorem C7_counterexample :
    (run (Graph.init dTwoAB) [Op.filter "A"]).isFiltered = true ∧
    (run (Graph.init dTwoAB) [Op.filter "A"]).selectedId = some "A" ∧
    ((Graph.resetView (run (Graph.init dTwoAB) [Op.filter "A"])).1).isFiltered = false ∧
    ((Graph.resetView (run (Graph.init dTwoAB) [Op.filter "A"])).1).selectedId = some "A" := by
  decide

/-- C7 (amended): `resetView` while filtered clears the filtered flag,
redraws the full master collection (as fresh clones, so by id the full
node set), leaves no node with "selected" styling (the redraw rebuilds all
circles unstyled), and emits no notification — but `selectedId` keeps its
previous value rather than becoming null (the source keeps no separate
focus variable and never touches `_selectedId` here).  `resetView` while
not filtered is an exact no-op, returning the state unchanged. -/
theorem C7_reset_transitions (s : GraphState) :
    (s.isFiltered = false → Graph.resetView s = (s, [])) ∧
    (s.isFiltered = true →
      ((Graph.resetView s).1).isFiltered = false ∧
      ((Graph.resetView s).1).selectedId = s.selectedId ∧
      ((Graph.resetView s).1).selStyled = [] ∧
      ((Graph.resetView s).1).drawnNodes.map (fun n => n.id) =
        s.allNodes.map (fun n => n.id) ∧
      (Graph.resetView s).2 = []) := by
  constructor
  · intro h
    exact reset_of_not_filtered s h
  · intro h
    rw [reset_of_filtered s h]
    exact ⟨rfl, rfl, rfl, map_id_clone s.allNodes, rfl⟩

/-- C7 (witness): concrete evaluation of both branches — the filtered
transition after `filterNeighborhood("A")` on `nodes = [A, B]`, and the
no-op on the freshly initialized (unfiltered) state. -/
theorem C7_reset_transitions_witness :
    (((Graph.resetView (run (Graph.init dTwoAB) [Op.filter "A"])).1).isFiltered = false ∧
      ((Graph.resetView (run (Graph.init dTwoAB) [Op.filter "A"])).1).selStyled = []) ∧
    Graph.resetView (Graph.init dTwoAB) = (Graph.init dTwoAB, []) :=
  ⟨⟨((C7_reset_transitions (run (Graph.init dTwoAB) [Op.filter "A"])).2 (by decide)).1,
    ((C7_reset_transitions (run (Graph.init dTwoAB) [Op.filter "A"])).2 (by decide)).2.2.1⟩,
   (C7_reset_transitions (Graph.init dTwoAB)).1 (by decide)⟩

/-- C2: after any (at least one) sequence of `filterNeighborhood` calls, a
single `resetView` restores the displayed node and edge collections equal
by id to the originally loaded ones (order included), with every metric
field (pagerank, betweenness, inDegree, outDegree) unchanged from load,
every position field cleared, and every edge's endpoint ids and kind
unchanged.  The restored objects are fresh clones, so equality is by id,
not object identity. -/
theorem C2_reset_restores (d : GraphData) (fs : List String) (hne : fs ≠ []) :
    ((Graph.resetView (run (Graph.init d) (fs.map Op.filter))).1).drawnNodes.map
      (fun n => n.id) = d.nodes.map (fun n => n.id) ∧
    ((Graph.resetView (run (Graph.init d) (fs.map Op.filter))).1).drawnNodes.map nodeKey =
      d.nodes.map nodeKey ∧
    (∀ n ∈ ((Graph.resetView (run (Graph.init d) (fs.map Op.filter))).1).drawnNodes,
      n.x = none ∧ n.y = none) ∧
    ((Graph.resetView (run (Graph.init d) (fs.map Op.filter))).1).drawnEdges.map edgeKey =
      d.edges.map edgeKey := by
  have hm := run_filters_masters fs (Graph.init d)
  have hAN : (run (Graph.init d) (fs.map Op.filter)).allNodes = d.nodes := hm.1
  have hAE : (run (Graph.init d) (fs.map Op.filter)).allEdges = d.edges := hm.2
  have hft : (run (Graph.init d) (fs.map Op.filter)).isFiltered = true :=
    run_filters_filtered fs (Graph.init d) hne
  rw [reset_of_filtered _ hft]
  refine ⟨?_, ?_, ?_, ?_⟩
  · show ((run (Graph.init d) (fs.map Op.filter)).allNodes.map cloneNode).map
      (fun n => n.id) = d.nodes.map (fun n => n.id)
    rw [hAN, map_id_clone]
  · show ((run (Graph.init d) (fs.map Op.filter)).allNodes.map cloneNode).map nodeKey =
      d.nodes.map nodeKey
    rw [hAN, map_key_clone]
  · intro n hn
    have hn2 : n ∈ (run (Graph.init d) (fs.map Op.filter)).allNodes.map cloneNode := hn
    rcases List.mem_map.mp hn2 with ⟨m, _, rfl⟩
    exact ⟨rfl, rfl⟩
  · show ((run (Graph.init d) (fs.map Op.filter)).allEdges.map normEdge).map edgeKey =
      d.edges.map edgeKey
    rw [hAE, map_key_norm]

/-- C2 (witness): the spec §8 scenario — load `A,B,C,D` with edges
`A→B, B→C`, filter at `B`, reset; the displayed ids are again
`A, B, C, D` with positions cleared. -/
theorem C2_reset_restores_witness :
    (["B"] : List String) ≠ [] ∧
    ((Graph.resetView (run (Graph.init dFour) (["B"].map Op.filter))).1).drawnNodes.map
      (fun n => n.id) = dFour.nodes.map (fun n => n.id) ∧
    (∀ n ∈ ((Graph.resetView (run (Graph.init dFour) (["B"].map Op.filter))).1).drawnNodes,
      n.x = none ∧ n.y = none) :=
  ⟨by decide,
   (C2_reset_restores dFour ["B"] (by decide)).1,
   (C2_reset_restores dFour ["B"] (by decide)).2.2.1⟩

/-- C5 (counterexample): the claim says that in every reachable filtered
state the focus node is displayed.  Concretely, on the load `nodes = [A]`,
`edges = []`, the single call `filterNeighborhood("B")` reaches a state
with `isFiltered = true` whose most recent filter argument is `"B"`, yet
the displayed node set is empty — the focus is not a member. -/
theorem C5_counterexample :
    (run (Graph.init dOneA) [Op.filter "B"]).isFiltered = true ∧
    lastFilterArg [Op.filter "B"] = some "B" ∧
    "B" ∉ (run (Graph.init dOneA) [Op.filter "B"]).drawnNodes.map (fun n => n.id) := by
  decide

/-- C5 (amended): in every state reachable by init and any sequence of
select/filter/reset operations in which `isFiltered = true`, there is a
most recent `filterNeighborhood` argument `f`, and whenever `f` is an id
of the loaded node collection the node carrying `f` is a member of the
displayed node set; and (in that same filtered state) every displayed
(drawn) edge has both of its endpoint ids among the displayed nodes'
ids. -/
theorem C5_filtered_invariant (d : GraphData) (ops : List Op)
    (hf : (run (Graph.init d) ops).isFiltered = true) :
    (∃ f, lastFilterArg ops = some f ∧
      (f ∈ d.nodes.map (fun n => n.id) →
        f ∈ (run (Graph.init d) ops).drawnNodes.map (fun n => n.id))) ∧
    (∀ e ∈ (run (Graph.init d) ops).visibleEdges,
      e.source.refId ∈ (run (Graph.init d) ops).drawnNodes.map (fun n => n.id) ∧
      e.target.refId ∈ (run (Graph.init d) ops).drawnNodes.map (fun n => n.id)) := by
  have hInv := stateInv_run d ops (Graph.init d) (stateInv_init d)
  obtain ⟨hmap, hids, hfoc, hvis⟩ := hInv
  refine ⟨?_, hvis⟩
  obtain ⟨f, hlf, hmem⟩ := hfoc hf
  refine ⟨f, ?_, fun hin => hmem (by rw [hids]; exact hin)⟩
  have hrl := run_lastFocus ops (Graph.init d)
  rw [hlf] at hrl
  cases hca : lastFilterArg ops with
  | some g =>
      rw [hca] at hrl
      exact hrl.symm
  | none =>
      rw [hca] at hrl
      exact Option.noConfusion hrl

/-- C5 (witness): concrete filtered run — load `[A, B]` with edge `A→B`,
filter at `A`: the focus `A` is loaded and displayed. -/
theorem C5_filtered_invariant_witness :
    (run (Graph.init dTwoAB) [Op.filter "A"]).isFiltered = true ∧
    (∃ f, lastFilterArg [Op.filter "A"] = some f ∧
      (f ∈ dTwoAB.nodes.map (fun n => n.id) →
        f ∈ (run (Graph.init dTwoAB) [Op.filter "A"]).drawnNodes.map (fun n => n.id))) :=
  ⟨by decide, (C5_filtered_invariant dTwoAB [Op.filter "A"] (by decide)).1⟩

/-- C10: in every reachable state the id index equals the one built from
the current master node collection: a lookup succeeds exactly for the ids
of the master collection, every successful lookup returns a member of the
current master collection carrying that id (for duplicate-free loads, the
node itself, also after `resetView` replaced the objects by clones), and
`filterNeighborhood` never rebuilds the index — while filtered it still
indexes the full master collection, not the displayed subset. -/
theorem C10_index_invariant (d : GraphData) (ops : List Op) :
    (run (Graph.init d) ops).nodeMap = buildNodeMap (run (Graph.init d) ops).allNodes ∧
    (∀ k, (ObjMap.get (run (Graph.init d) ops).nodeMap k).isSome = true ↔
      k ∈ (run (Graph.init d) ops).allNodes.map (fun n => n.id)) ∧
    (∀ k n, ObjMap.get (run (Graph.init d) ops).nodeMap k = some n →
      n ∈ (run (Graph.init d) ops).allNodes ∧ n.id = k) ∧
    ((d.nodes.map (fun n => n.id)).Nodup →
      ∀ n ∈ (run (Graph.init d) ops).allNodes,
        ObjMap.get (run (Graph.init d) ops).nodeMap n.id = some n) ∧
    (∀ i, ((step (run (Graph.init d) ops) (Op.filter i)).1).nodeMap =
      (run (Graph.init d) ops).nodeMap) := by
  have hInv := stateInv_run d ops (Graph.init d) (stateInv_init d)
  obtain ⟨hmap, hids, _, _⟩ := hInv
  refine ⟨hmap, ?_, ?_, ?_, fun i => rfl⟩
  · intro k
    rw [hmap, get_buildNodeMap]
    exact lastWithId_isSome _ k
  · intro k n h
    rw [hmap, get_buildNodeMap] at h
    exact lastWithId_mem _ k n h
  · intro hnd n hn
    rw [hmap, get_buildNodeMap]
    apply lastWithId_of_nodup
    · rw [hids]
      exact hnd
    · exact hn

/-- C10 (witness): concrete run — load `[A, B]` with edge `A→B`, filter at
`A` (so the state is filtered and displays a subset); the index still
resolves both master ids, and the filter step left it unchanged. -/
theorem C10_index_invariant_witness :
    ((ObjMap.get (run (Graph.init dTwoAB) [Op.filter "A"]).nodeMap "B").isSome = true ↔
      "B" ∈ (run (Graph.init dTwoAB) [Op.filter "A"]).allNodes.map (fun n => n.id)) ∧
    ((dTwoAB.nodes.map (fun n => n.id)).Nodup →
      ∀ n ∈ (run (Graph.init dTwoAB) [Op.filter "A"]).allNodes,
        ObjMap.get (run (Graph.init dTwoAB) [Op.filter "A"]).nodeMap n.id = some n) :=
  ⟨(C10_index_invariant dTwoAB [Op.filter "A"]).2.1 "B",
   (C10_index_invariant dTwoAB [Op.filter "A"]).2.2.2.1⟩
